import Mathlib

/-!
# Verification of the loona response core

Shallow embedding of the typestate `Responder` (crates/loona/src/responder.rs),
the HTTP/2 body adapter (src/h2/body.rs) and the `read_and_parse` driver
(crates/loona/src/util.rs), together with theorems settling the spec claims.

Machine integers (`u64`, `usize`) are modelled as `Nat`; byte buffers as
`List Nat`. Asynchronous calls are modelled as explicit state passing:
an encoder operation takes the encoder state and returns `Except` of the
new state; suspension itself is not observable by any claim.
-/

/-- A `buffet::Piece`: an opaque owned byte slice; the engine only ever
reads its length. -/
structure Piece where
  data : List Nat
deriving DecidableEq, Repr

/-- `Piece::len`. -/
def Piece.len (p : Piece) : Nat := p.data.length

/-- Header container, modelled as an association list of
(lowercase name, ASCII value). The `http` crate normalizes header names
to lowercase, so case-insensitive comparison becomes plain equality here. -/
abbrev Headers := List (String × String)

/-- The normalized name of the `Content-Length` header. -/
def contentLengthKey : String := "content-length"

/-- Whether the header map holds at least one entry for `name`. -/
def headers_contains (h : Headers) (name : String) : Bool :=
  h.any (fun p => p.1 = name)

/-- `HeaderMap::entry(name).or_insert_with(|| v)` (external `http` crate):
leave the map unchanged when an entry for `name` exists, otherwise append
`(name, v)`. -/
def entry_or_insert (h : Headers) (name : String) (v : String) : Headers :=
  if headers_contains h name then h else h ++ [(name, v)]

/-- Modelled from the spec: parsing a header value as an unsigned 64-bit
integer — all-digit, non-empty, and below `2^64`; anything else is
unparseable. (`HeadersExt::content_length` lives outside the provided
sources; the spec says "if present and parseable as an unsigned 64-bit
integer, records it as the announced length".) -/
def parse_u64 (s : String) : Option Nat :=
  if s.data = [] then none
  else if s.data.all Char.isDigit then
    let n := s.data.foldl (fun acc c => acc * 10 + (c.toNat - 48)) 0
    if n < 2 ^ 64 then some n else none
  else none

/-- Modelled from the spec: `HeadersExt::content_length` — the accessor
"that parses `Content-Length` into an optional unsigned 64-bit integer".
Absent or unparseable header yields `none`. -/
def content_length (h : Headers) : Option Nat :=
  match h.find? (fun p => p.1 = contentLengthKey) with
  | some p => parse_u64 p.2
  | none => none

/-- An HTTP response snapshot: status, version, headers. -/
structure Response where
  status : Nat
  version : Nat
  headers : Headers
deriving DecidableEq, Repr

/-- `StatusCode::is_informational` from the `http` crate:
status in `[100,199]`. -/
def is_informational (s : Nat) : Bool := 100 ≤ s && s < 200

/-- One observable encoder invocation (used to state ordering claims). -/
inductive EncCall where
  | response (res : Response)
  | bodyChunk (chunk : Piece)
  | bodyEnd
  | trailers (t : Headers)
deriving DecidableEq, Repr

/-- The `Encoder` trait: four operations over an encoder state `σ`,
each able to fail with an encoder-defined error `ε`. -/
structure Enc (σ ε : Type) where
  write_response : σ → Response → Except ε σ
  write_body_chunk : σ → Piece → Except ε σ
  write_body_end : σ → Except ε σ
  write_trailers : σ → Headers → Except ε σ

/-- The `eyre::bail!` diagnostic issued by `finish_body` on a
content-length mismatch. -/
def content_length_mismatch_msg (announced written : Nat) : String :=
  "content-length mismatch: announced " ++ toString announced
    ++ ", wrote " ++ toString written

/-- The responder's error channel. The first three constructors are the
variants of the source's `ResponderError` enum (responder.rs lines 22-36).
`EyreReport` is the untyped `eyre::bail!` diagnostic used by `finish_body`;
`BodyError` is a body-pull failure propagated by `?` in
`write_final_response_with_body`. `ContentLengthMismatch` is the variant
named by the spec's error taxonomy (§7); it is declared here so the claim
about it can be stated, and no definition in this file ever produces it. -/
inductive ResponderError (ε β : Type) where
  | InterimResponseMustHaveStatusCode1xx (actual : Nat)
  | FinalResponseMustHaveStatusCodeGreaterThanOrEqualTo200 (actual : Nat)
  | EncoderError (e : ε)
  | EyreReport (msg : String)
  | BodyError (e : β)
  | ContentLengthMismatch (announced actual : Nat)
deriving DecidableEq, Repr

/-- Whether an error is the structured `ContentLengthMismatch` variant. -/
def ResponderError.isContentLengthMismatchVariant : ResponderError ε β → Bool
  | .ContentLengthMismatch _ _ => true
  | _ => false

/-- Whether an error is the `EncoderError` pass-through variant. -/
def ResponderError.isEncoderError : ResponderError ε β → Bool
  | .EncoderError _ => true
  | _ => false

/-- Typestate `ExpectResponseHeaders`: no carried data. -/
structure ExpectResponseHeaders where
deriving DecidableEq, Repr

/-- Typestate `ExpectResponseBody`: announced length and bytes written. -/
structure ExpectResponseBody where
  announced_content_length : Option Nat
  bytes_written : Nat
deriving DecidableEq, Repr

/-- Typestate `ResponseDone`: no carried data. -/
structure ResponseDone where
deriving DecidableEq, Repr

/-- The `Responder`: encoder state, the list of encoder invocations issued
so far (observation apparatus for the ordering claims), and the phase
state. -/
structure Responder (σ π : Type) where
  encoder : σ
  calls : List EncCall
  state : π
deriving DecidableEq, Repr

/-- `Responder::new`. -/
def Responder.mkNew (s : σ) : Responder σ ExpectResponseHeaders :=
  { encoder := s, calls := [], state := {} }

/-- `Responder::write_interim_response`: errors out with
`InterimResponseMustHaveStatusCode1xx` unless the status is 1xx, otherwise
forwards the response to the encoder and stays in `ExpectResponseHeaders`. -/
def write_interim_response (enc : Enc σ ε) (r : Responder σ ExpectResponseHeaders)
    (res : Response) :
    Except (ResponderError ε β) (Responder σ ExpectResponseHeaders) :=
  if !is_informational res.status then
    .error (.InterimResponseMustHaveStatusCode1xx res.status)
  else
    match enc.write_response r.encoder res with
    | .error e => .error (.EncoderError e)
    | .ok s => .ok { r with encoder := s, calls := r.calls ++ [.response res] }

/-- `Responder::write_final_response_internal`: errors out with
`FinalResponseMustHaveStatusCodeGreaterThanOrEqualTo200` when the status is
informational, otherwise forwards the response and moves to
`ExpectResponseBody` with the given announced length and a zero counter. -/
def write_final_response_internal (enc : Enc σ ε)
    (r : Responder σ ExpectResponseHeaders) (res : Response)
    (announced : Option Nat) :
    Except (ResponderError ε β) (Responder σ ExpectResponseBody) :=
  if is_informational res.status then
    .error (.FinalResponseMustHaveStatusCodeGreaterThanOrEqualTo200 res.status)
  else
    match enc.write_response r.encoder res with
    | .error e => .error (.EncoderError e)
    | .ok s =>
      .ok { encoder := s, calls := r.calls ++ [.response res],
            state := { announced_content_length := announced, bytes_written := 0 } }

/-- `Responder::write_final_response`: records the announced length by
parsing the response's `Content-Length` header, then defers to
`write_final_response_internal`. -/
def write_final_response (enc : Enc σ ε) (r : Responder σ ExpectResponseHeaders)
    (res : Response) :
    Except (ResponderError ε β) (Responder σ ExpectResponseBody) :=
  write_final_response_internal enc r res (content_length res.headers)

/-- `Responder::write_chunk` (`&mut self` in the source, hence the returned
pair: the result together with the updated responder). The counter is
incremented — and the invocation issued — before the encoder call, so the
updated responder accounts for the attempted bytes even when the encoder
fails. -/
def write_chunk (enc : Enc σ ε) (r : Responder σ ExpectResponseBody)
    (chunk : Piece) :
    Except (ResponderError ε β) Unit × Responder σ ExpectResponseBody :=
  let r1 : Responder σ ExpectResponseBody :=
    { r with
      state := { r.state with bytes_written := r.state.bytes_written + chunk.len },
      calls := r.calls ++ [.bodyChunk chunk] }
  match enc.write_body_chunk r1.encoder chunk with
  | .error e => (.error (.EncoderError e), r1)
  | .ok s => (.ok (), { r1 with encoder := s })

/-- The tail of `finish_body` after the content-length check:
`write_body_end`, then `write_trailers` when trailers were supplied. -/
def finish_body_tail (enc : Enc σ ε) (r : Responder σ ExpectResponseBody)
    (trailers : Option Headers) :
    Except (ResponderError ε β) (Responder σ ResponseDone) :=
  match enc.write_body_end r.encoder with
  | .error e => .error (.EncoderError e)
  | .ok s =>
    match trailers with
    | some t =>
      match enc.write_trailers s t with
      | .error e => .error (.EncoderError e)
      | .ok s2 =>
        .ok { encoder := s2, calls := r.calls ++ [.bodyEnd, .trailers t], state := {} }
    | none => .ok { encoder := s, calls := r.calls ++ [.bodyEnd], state := {} }

/-- `Responder::finish_body`: if an announced length was recorded and the
counter differs, bail with the `eyre` diagnostic carrying both numbers;
otherwise emit `write_body_end` and the optional trailers. -/
def finish_body (enc : Enc σ ε) (r : Responder σ ExpectResponseBody)
    (trailers : Option Headers) :
    Except (ResponderError ε β) (Responder σ ResponseDone) :=
  match r.state.announced_content_length with
  | some announced =>
    if r.state.bytes_written ≠ announced then
      .error (.EyreReport
        (content_length_mismatch_msg announced r.state.bytes_written))
    else finish_body_tail enc r trailers
  | none => finish_body_tail enc r trailers

/-- A body source that yields the pulls in `items` in order (each a chunk
or a pull error), then `Done { trailers }`; `content_length` is its
a-priori length promise. This is the class of bodies the ordering and
accounting claims quantify over. -/
structure BodySeq (β : Type) where
  content_length : Option Nat
  items : List (Except β Piece)
  trailers : Option Headers

/-- The pull loop of `write_final_response_with_body`: each chunk goes to
`write_chunk` (aborting on its error), a pull error is propagated by `?`,
and exhaustion reaches `Done { trailers }`, which invokes `finish_body`. -/
def body_loop (enc : Enc σ ε) :
    Responder σ ExpectResponseBody → List (Except β Piece) → Option Headers →
    Except (ResponderError ε β) (Responder σ ResponseDone)
  | r, [], tr => finish_body enc r tr
  | _, .error e :: _, _ => .error (.BodyError e)
  | r, .ok p :: rest, tr =>
    match write_chunk enc r p with
    | (.error e, _) => .error e
    | (.ok _, r1) => body_loop enc r1 rest tr

/-- The header fixup at the top of `write_final_response_with_body`
(responder.rs lines 143-157): when the body reports a known content
length, `entry(CONTENT_LENGTH).or_insert_with(|| format!("{clen}"))` —
insert the decimal rendering only when no entry exists. -/
def auto_content_length (res : Response) (clen : Option Nat) : Response :=
  match clen with
  | some n =>
    { res with headers := entry_or_insert res.headers contentLengthKey (toString n) }
  | none => res

/-- `Responder::write_final_response_with_body`: fix up `Content-Length`
from the body's promise, write the final response, then drive the body to
completion. -/
def write_final_response_with_body (enc : Enc σ ε)
    (r : Responder σ ExpectResponseHeaders) (res : Response) (body : BodySeq β) :
    Except (ResponderError ε β) (Responder σ ResponseDone) :=
  match write_final_response enc r (auto_content_length res body.content_length) with
  | .error e => .error e
  | .ok r1 => body_loop enc r1 body.items body.trailers

/-- Folding `write_chunk` over a list of pieces (the "sequence of chunk
writes" of the accounting claim), aborting at the first error. -/
def write_chunks (enc : Enc σ ε) :
    Responder σ ExpectResponseBody → List Piece →
    Except (ResponderError ε β) Unit × Responder σ ExpectResponseBody
  | r, [] => (.ok (), r)
  | r, p :: ps =>
    match write_chunk enc r p with
    | (.error e, r1) => (.error e, r1)
    | (.ok _, r1) => write_chunks enc r1 ps

/-- Total size of a chunk sequence. -/
def total_len (ps : List Piece) : Nat := (ps.map Piece.len).sum

/-- An encoder whose four operations always succeed (the mock encoder of
the source's tests). -/
def unitEnc : Enc Unit Unit :=
  { write_response := fun _ _ => .ok ()
    write_body_chunk := fun _ _ => .ok ()
    write_body_end := fun _ => .ok ()
    write_trailers := fun _ _ => .ok () }

/-- An encoder whose four operations always fail. -/
def failEnc : Enc Unit Unit :=
  { write_response := fun _ _ => .error ()
    write_body_chunk := fun _ _ => .error ()
    write_body_end := fun _ => .error ()
    write_trailers := fun _ _ => .error () }

/-- The encoder calls `finish_body` issues for given trailers. -/
def trailer_calls : Option Headers → List EncCall
  | none => []
  | some t => [.trailers t]

/-- A pull result of the `Body` trait: a chunk, or done with optional
trailers. -/
inductive BodyChunk where
  | Chunk (piece : Piece)
  | Done (trailers : Option Headers)
deriving DecidableEq, Repr

/-- The HTTP/2 body adapter (src/h2/body.rs): a content-length promise, an
EOF flag, and the inbox of chunk-or-error messages delivered by the HTTP/2
demultiplexer. The `mpsc::Receiver` is modelled as the list of messages
still to be received; an exhausted list is a closed channel. -/
structure H2Body (β : Type) where
  content_length : Option Nat
  eof : Bool
  rx : List (Except β Piece)
deriving Repr

/-- `H2Body::content_len`. -/
def H2Body.content_len (b : H2Body β) : Option Nat := b.content_length

/-- `H2Body::next_chunk` (`&mut self`): if EOF is set, done with no
trailers, inbox untouched; otherwise receive from the inbox — a value is a
chunk, an error propagates (`roll?`), a closed inbox sets EOF and yields
done with no trailers. -/
def H2Body.next_chunk (b : H2Body β) : Except β BodyChunk × H2Body β :=
  if b.eof then (.ok (.Done none), b)
  else
    match b.rx with
    | [] => (.ok (.Done none), { b with eof := true })
    | .ok roll :: rest => (.ok (.Chunk roll), { b with rx := rest })
    | .error e :: rest => (.error e, { b with rx := rest })

/-- `n` successive pulls on the adapter, keeping only the body state. -/
def H2Body.pull_iter (b : H2Body β) : Nat → H2Body β
  | 0 => b
  | n + 1 => (H2Body.next_chunk (H2Body.pull_iter b n)).2

/-- Result of running the incremental parser on the filled region
(`nom::IResult`): success with the unconsumed rest, incomplete, or a
parse rejection. -/
inductive ParseResult (α : Type) where
  | ok (rest : List Nat) (output : α)
  | incomplete
  | fail
deriving Repr

/-- The transport-level error kind we need (`std::io::ErrorKind`). -/
inductive IoErrorKind where
  | unexpectedEof
deriving DecidableEq, Repr

/-- `ReadAndParseError` (util.rs lines 7-22). `Alloc` is declared for
fidelity; buffer reservation is modelled as infallible, so no definition
here produces it. -/
inductive ReadAndParseError where
  | Alloc
  | ReadError (kind : IoErrorKind)
  | BufferLimitReachedWhileParsing (limit : Nat)
  | ParsingError
deriving DecidableEq, Repr

/-- One `read_into(limit, stream)` step. The transport is the list of
chunks successive reads deliver; a read takes at most `limit` bytes of the
head chunk, pushing any remainder back; an exhausted transport reads 0
bytes. Returns (bytes read, new buffer, remaining transport). -/
def read_into (limit : Nat) (buf : List Nat) (s : List (List Nat)) :
    Nat × List Nat × List (List Nat) :=
  match s with
  | [] => (0, buf, [])
  | c :: rest =>
    let t := c.take limit
    let rem := c.drop limit
    (t.length, buf ++ t, if rem.isEmpty then rest else rem :: rest)

/-- Outcome of `read_and_parse`. `panicked` models the `usize` underflow
of `max_len - buf.len()` (a panic in debug builds); `outOfFuel` is the
fuel bound of the embedding, never reached by the theorems below. -/
inductive RAPOutcome (α : Type) where
  | eos
  | parsed (buf : List Nat) (output : α)
  | err (e : ReadAndParseError)
  | panicked
  | outOfFuel
deriving Repr

/-- `read_and_parse` (util.rs lines 42-111), with explicit fuel for the
read loop. Each iteration runs the parser on the buffer; on success the
rest is kept and returned with the output; on a parse rejection,
`ParsingError`. On incomplete: the source evaluates
`read_limit = max_len - buf.len()` **before** checking
`buf.len() >= max_len`, so a buffer longer than `max_len` underflows the
`usize` subtraction (`panicked`); at the limit, `BufferLimitReachedWhileParsing`;
otherwise read up to `read_limit` bytes — a 0-byte read is a clean
end-of-stream on an empty buffer and `UnexpectedEof` on a non-empty one.
Lazy reservation (`buf.reserve()`) is modelled as infallible. -/
def read_and_parse (p : List Nat → ParseResult α) (max_len : Nat) :
    Nat → List Nat → List (List Nat) → RAPOutcome α
  | 0, _, _ => .outOfFuel
  | fuel + 1, buf, s =>
    match p buf with
    | .ok rest output => .parsed rest output
    | .fail => .err .ParsingError
    | .incomplete =>
      if max_len < buf.length then .panicked
      else
        let read_limit := max_len - buf.length
        if max_len ≤ buf.length then .err (.BufferLimitReachedWhileParsing max_len)
        else
          let t := read_into read_limit buf s
          if t.1 = 0 then
            if t.2.1.isEmpty then .eos else .err (.ReadError .unexpectedEof)
          else read_and_parse p max_len fuel t.2.1 t.2.2

/-- A parser that always reports incomplete. -/
def always_incomplete : List Nat → ParseResult Unit := fun _ => .incomplete

/-- `hay` has `sub` as a contiguous substring. -/
def str_contains (hay sub : String) : Prop :=
  ∃ l r, hay.data = l ++ sub.data ++ r

theorem is_informational_iff (s : Nat) :
    is_informational s = true ↔ (100 ≤ s ∧ s < 200) := by
  simp [is_informational]

theorem is_informational_false_of_ge (s : Nat) (h : 200 ≤ s) :
    is_informational s = false := by
  simp only [is_informational]
  simp only [Bool.and_eq_false_iff, decide_eq_false_iff_not, not_lt, not_le]
  omega

theorem string_data_append (s t : String) : (s ++ t).data = s.data ++ t.data := by
  cases s; cases t; rfl

/-- The mismatch diagnostic contains the decimal rendering of both the
announced and the actual byte counts. -/
theorem content_length_mismatch_msg_contains (a w : Nat) :
    str_contains (content_length_mismatch_msg a w) (toString a) ∧
    str_contains (content_length_mismatch_msg a w) (toString w) := by
  constructor
  · refine ⟨("content-length mismatch: announced ").data,
      (", wrote " ++ toString w).data, ?_⟩
    simp [content_length_mismatch_msg, string_data_append, List.append_assoc]
  · refine ⟨("content-length mismatch: announced " ++ toString a ++ ", wrote ").data,
      [], ?_⟩
    simp [content_length_mismatch_msg, string_data_append, List.append_assoc]

/-- C2: status-class discrimination. An interim response with a 1xx status
succeeds (given the encoder accepts it) and the responder stays in
`ExpectResponseHeaders`; a non-1xx interim fails with
`InterimResponseMustHaveStatusCode1xx` carrying the actual status; a final
response with a 1xx status fails with
`FinalResponseMustHaveStatusCodeGreaterThanOrEqualTo200` carrying the
actual status; a final response with status ≥ 200 succeeds (given the
encoder accepts it) and moves to `ExpectResponseBody` with a zero
bytes-written counter. -/
theorem C2_status_discrimination {σ ε β : Type} (enc : Enc σ ε)
    (r : Responder σ ExpectResponseHeaders) (res : Response) :
    ((100 ≤ res.status ∧ res.status < 200) →
      ∀ s, enc.write_response r.encoder res = .ok s →
        write_interim_response (β := β) enc r res
          = .ok { r with encoder := s, calls := r.calls ++ [.response res] }) ∧
    (¬(100 ≤ res.status ∧ res.status < 200) →
      write_interim_response (β := β) enc r res
        = .error (.InterimResponseMustHaveStatusCode1xx res.status)) ∧
    ((100 ≤ res.status ∧ res.status < 200) →
      write_final_response (β := β) enc r res
        = .error (.FinalResponseMustHaveStatusCodeGreaterThanOrEqualTo200 res.status)) ∧
    (200 ≤ res.status →
      ∀ s, enc.write_response r.encoder res = .ok s →
        write_final_response (β := β) enc r res
          = .ok { encoder := s, calls := r.calls ++ [.response res],
                  state := { announced_content_length := content_length res.headers,
                             bytes_written := 0 } }) := by
  refine ⟨?_, ?_, ?_, ?_⟩
  · intro h s hs
    have hi : is_informational res.status = true := (is_informational_iff _).mpr h
    simp [write_interim_response, hi, hs]
  · intro h
    have hi : is_informational res.status = false := by
      cases hi : is_informational res.status with
      | false => rfl
      | true => exact absurd ((is_informational_iff _).mp hi) h
    simp [write_interim_response, hi]
  · intro h
    have hi : is_informational res.status = true := (is_informational_iff _).mpr h
    simp [write_final_response, write_final_response_internal, hi]
  · intro h s hs
    have hi : is_informational res.status = false := is_informational_false_of_ge _ h
    simp [write_final_response, write_final_response_internal, hi, hs]

theorem C2_status_discrimination_witness :
    (write_interim_response (β := Unit) unitEnc (Responder.mkNew ()) ⟨100, 1, []⟩
      = .ok { encoder := (), calls := [.response ⟨100, 1, []⟩], state := {} }) ∧
    (write_interim_response (β := Unit) unitEnc (Responder.mkNew ()) ⟨200, 1, []⟩
      = .error (.InterimResponseMustHaveStatusCode1xx 200)) ∧
    (write_final_response (β := Unit) unitEnc (Responder.mkNew ()) ⟨101, 1, []⟩
      = .error (.FinalResponseMustHaveStatusCodeGreaterThanOrEqualTo200 101)) ∧
    (write_final_response (β := Unit) unitEnc (Responder.mkNew ()) ⟨200, 1, []⟩
      = .ok { encoder := (), calls := [.response ⟨200, 1, []⟩],
              state := { announced_content_length := none, bytes_written := 0 } }) :=
  ⟨(C2_status_discrimination unitEnc (Responder.mkNew ()) ⟨100, 1, []⟩).1
      (by decide) () rfl,
   (C2_status_discrimination unitEnc (Responder.mkNew ()) ⟨200, 1, []⟩).2.1
      (by decide),
   (C2_status_discrimination unitEnc (Responder.mkNew ()) ⟨101, 1, []⟩).2.2.1
      (by decide),
   (C2_status_discrimination unitEnc (Responder.mkNew ()) ⟨200, 1, []⟩).2.2.2
      (by decide) () rfl⟩

/-- C6: `write_chunk` adds the piece's length to the bytes-written counter
before invoking the encoder — the updated responder accounts for the
attempted bytes even when the encoder call fails — it leaves the announced
length untouched, and any error it returns is the raw `EncoderError`
pass-through: no check against the announced length happens here. -/
theorem C6_write_chunk_counter {σ ε β : Type} (enc : Enc σ ε)
    (r : Responder σ ExpectResponseBody) (p : Piece) :
    (write_chunk (β := β) enc r p).2.state.bytes_written
        = r.state.bytes_written + p.len ∧
    (write_chunk (β := β) enc r p).2.state.announced_content_length
        = r.state.announced_content_length ∧
    ∀ e, (write_chunk (β := β) enc r p).1 = .error e →
      ResponderError.isEncoderError e = true := by
  cases h : enc.write_body_chunk r.encoder p with
  | error e =>
    refine ⟨?_, ?_, ?_⟩ <;>
      simp [write_chunk, h, ResponderError.isEncoderError]
  | ok s =>
    refine ⟨?_, ?_, ?_⟩ <;> simp [write_chunk, h]

theorem C6_write_chunk_counter_witness :
    ((write_chunk (β := Unit) failEnc
        ⟨(), [], ⟨some 10, 0⟩⟩ ⟨[1, 2, 3]⟩).2.state.bytes_written
      = 0 + Piece.len ⟨[1, 2, 3]⟩) ∧
    ResponderError.isEncoderError
      (ResponderError.EncoderError (ε := Unit) (β := Unit) ()) = true :=
  ⟨(C6_write_chunk_counter failEnc ⟨(), [], ⟨some 10, 0⟩⟩ ⟨[1, 2, 3]⟩).1,
   (C6_write_chunk_counter failEnc ⟨(), [], ⟨some 10, 0⟩⟩ ⟨[1, 2, 3]⟩).2.2
     (.EncoderError ()) rfl⟩

theorem h2_pull_iter_eof {β : Type} (b : H2Body β) (h : b.eof = true) :
    ∀ n, H2Body.pull_iter b n = b := by
  intro n
  induction n with
  | zero => rfl
  | succ n ih => simp [H2Body.pull_iter, ih, H2Body.next_chunk, h]

/-- C7: for the HTTP/2 body adapter — with the EOF flag set, a pull
returns done with no trailers and leaves the body (inbox included)
untouched; with the inbox closed, a pull sets the EOF flag and returns
done with no trailers; and whenever a pull returns done, it carried no
trailers, the EOF predicate holds afterwards, and every subsequent pull
again returns done with no trailers. -/
theorem C7_h2_eof_idempotent {β : Type} (b : H2Body β) :
    (b.eof = true → H2Body.next_chunk b = (.ok (.Done none), b)) ∧
    (b.eof = false → b.rx = [] →
      H2Body.next_chunk b = (.ok (.Done none), { b with eof := true })) ∧
    (∀ t b', H2Body.next_chunk b = (.ok (.Done t), b') →
      t = none ∧ b'.eof = true ∧
      ∀ n, H2Body.next_chunk (H2Body.pull_iter b' n)
        = (.ok (.Done none), H2Body.pull_iter b' n)) := by
  refine ⟨?_, ?_, ?_⟩
  · intro h
    simp [H2Body.next_chunk, h]
  · intro h hrx
    simp [H2Body.next_chunk, h, hrx]
  · intro t b' h
    have hb' : t = none ∧ b'.eof = true := by
      cases hb : b.eof with
      | true =>
        simp [H2Body.next_chunk, hb] at h
        obtain ⟨ht, hbb⟩ := h
        subst hbb
        exact ⟨ht.symm, hb⟩
      | false =>
        cases hrx : b.rx with
        | nil =>
          simp [H2Body.next_chunk, hb, hrx] at h
          obtain ⟨ht, hbb⟩ := h
          subst hbb
          exact ⟨ht.symm, rfl⟩
        | cons m rest =>
          cases m with
          | ok roll => simp [H2Body.next_chunk, hb, hrx] at h
          | error e => simp [H2Body.next_chunk, hb, hrx] at h
    refine ⟨hb'.1, hb'.2, ?_⟩
    intro n
    rw [h2_pull_iter_eof b' hb'.2 n]
    simp [H2Body.next_chunk, hb'.2]

theorem C7_h2_eof_idempotent_witness :
    H2Body.next_chunk (⟨some 5, true, []⟩ : H2Body Unit)
      = (.ok (.Done none), (⟨some 5, true, []⟩ : H2Body Unit)) :=
  (C7_h2_eof_idempotent (⟨some 5, true, []⟩ : H2Body Unit)).1 rfl

/-- C10: a per-chunk error is not terminal for the HTTP/2 body adapter. A
pull that receives an error from the inbox propagates it, consumes only
that message, leaves the EOF flag false and the stored content length
unchanged; the next pull therefore reads the inbox again (it consumes the
next message) instead of returning done. -/
theorem C10_h2_error_not_terminal {β : Type} (b : H2Body β) (e : β)
    (rest : List (Except β Piece)) (hb : b.eof = false)
    (hrx : b.rx = .error e :: rest) :
    H2Body.next_chunk b = (.error e, { b with rx := rest }) ∧
    ({ b with rx := rest } : H2Body β).eof = false ∧
    ({ b with rx := rest } : H2Body β).content_length = b.content_length ∧
    ∀ m rest2, rest = m :: rest2 →
      (H2Body.next_chunk { b with rx := rest }).2.rx = rest2 := by
  refine ⟨by simp [H2Body.next_chunk, hb, hrx], by simp [hb], rfl, ?_⟩
  intro m rest2 hm
  subst hm
  cases m with
  | ok roll => simp [H2Body.next_chunk, hb]
  | error e2 => simp [H2Body.next_chunk, hb]

theorem C10_h2_error_not_terminal_witness :
    H2Body.next_chunk (⟨none, false, [.error 7, .ok ⟨[1]⟩]⟩ : H2Body Nat)
      = (.error 7, (⟨none, false, [.ok ⟨[1]⟩]⟩ : H2Body Nat)) ∧
    (H2Body.next_chunk
        (⟨none, false, [.ok (Piece.mk [1])]⟩ : H2Body Nat)).2.rx = [] :=
  ⟨(C10_h2_error_not_terminal (⟨none, false, [.error 7, .ok ⟨[1]⟩]⟩ : H2Body Nat)
      7 [.ok ⟨[1]⟩] rfl rfl).1,
   (C10_h2_error_not_terminal (⟨none, false, [.error 7, .ok ⟨[1]⟩]⟩ : H2Body Nat)
      7 [.ok ⟨[1]⟩] rfl rfl).2.2.2 (.ok ⟨[1]⟩) [] rfl⟩

/-- C3 counterexample: at announced length 10 with 5 bytes written,
`finish_body` returns an `eyre` diagnostic, not the structured
`ContentLengthMismatch` variant the spec's taxonomy names — the source's
`ResponderError` enum has no such variant. -/
theorem C3_counterexample :
    (finish_body (β := Unit) unitEnc ⟨(), [], ⟨some 10, 5⟩⟩ none
      = .error (.EyreReport "content-length mismatch: announced 10, wrote 5")) ∧
    ResponderError.isContentLengthMismatchVariant
      (ResponderError.EyreReport (ε := Unit) (β := Unit)
        "content-length mismatch: announced 10, wrote 5") = false := by
  constructor
  · rfl
  · rfl

/-- C3 (amended): when `finish_body` detects a content-length mismatch,
the error it returns is the `eyre::bail!` diagnostic whose message carries
the announced length and the actual bytes written — not a structured
`ContentLengthMismatch` variant. -/
theorem C3_mismatch_is_eyre_diagnostic {σ ε β : Type} (enc : Enc σ ε)
    (r : Responder σ ExpectResponseBody) (tr : Option Headers) (a : Nat)
    (ha : r.state.announced_content_length = some a)
    (hw : r.state.bytes_written ≠ a) :
    (finish_body (β := β) enc r tr
      = .error (.EyreReport
          (content_length_mismatch_msg a r.state.bytes_written))) ∧
    str_contains (content_length_mismatch_msg a r.state.bytes_written)
      (toString a) ∧
    str_contains (content_length_mismatch_msg a r.state.bytes_written)
      (toString r.state.bytes_written) ∧
    ResponderError.isContentLengthMismatchVariant
      (ResponderError.EyreReport (ε := ε) (β := β)
        (content_length_mismatch_msg a r.state.bytes_written)) = false := by
  refine ⟨?_, (content_length_mismatch_msg_contains _ _).1,
    (content_length_mismatch_msg_contains _ _).2, rfl⟩
  simp [finish_body, ha, hw]

theorem C3_mismatch_is_eyre_diagnostic_witness :
    (finish_body (β := Unit) unitEnc
        (⟨(), [], ⟨some 10, 5⟩⟩ : Responder Unit ExpectResponseBody) none
      = .error (.EyreReport (content_length_mismatch_msg 10 5))) ∧
    str_contains (content_length_mismatch_msg 10 5) (toString 10) ∧
    str_contains (content_length_mismatch_msg 10 5) (toString 5) ∧
    ResponderError.isContentLengthMismatchVariant
      (ResponderError.EyreReport (ε := Unit) (β := Unit)
        (content_length_mismatch_msg 10 5)) = false :=
  C3_mismatch_is_eyre_diagnostic unitEnc ⟨(), [], ⟨some 10, 5⟩⟩ none 10 rfl
    (by decide)

/-- The `ExpectResponseBody` responder produced by a successful
`write_final_response` over a fresh responder: announced length parsed
from the headers, counter at zero. -/
def after_final (res : Response) : Responder Unit ExpectResponseBody :=
  { encoder := (), calls := [.response res],
    state := { announced_content_length := content_length res.headers,
               bytes_written := 0 } }

theorem write_chunks_unitEnc {β : Type} (ps : List Piece)
    (r : Responder Unit ExpectResponseBody) :
    (write_chunks (β := β) unitEnc r ps).1 = .ok () ∧
    (write_chunks (β := β) unitEnc r ps).2.state.bytes_written
      = r.state.bytes_written + total_len ps ∧
    (write_chunks (β := β) unitEnc r ps).2.state.announced_content_length
      = r.state.announced_content_length := by
  induction ps generalizing r with
  | nil => simp [write_chunks, total_len]
  | cons p ps ih =>
    have hstep : write_chunks (β := β) unitEnc r (p :: ps)
        = write_chunks (β := β) unitEnc
            { r with
              state := { r.state with
                bytes_written := r.state.bytes_written + p.len },
              calls := r.calls ++ [.bodyChunk p] } ps := by
      simp [write_chunks, write_chunk, unitEnc]
    rw [hstep]
    obtain ⟨h1, h2, h3⟩ := ih
      { r with
        state := { r.state with bytes_written := r.state.bytes_written + p.len },
        calls := r.calls ++ [.bodyChunk p] }
    refine ⟨h1, ?_, h3⟩
    rw [h2]
    simp [total_len]
    omega

theorem finish_body_tail_unitEnc_isOk {β : Type}
    (r : Responder Unit ExpectResponseBody) (tr : Option Headers) :
    (finish_body_tail (β := β) unitEnc r tr).isOk = true := by
  cases tr <;> simp [finish_body_tail, unitEnc, Except.isOk, Except.toBool]

/-- C1: content-length accounting. For a final response, the announced
length is recorded by parsing the `Content-Length` header (absent or
unparseable means unset); a sequence of chunk writes drives the counter to
the total chunk length T; `finish_body` succeeds iff the announced length
is unset or equals T; and on a mismatch it fails with the diagnostic that
carries both the announced and the actual byte counts. -/
theorem C1_content_length_accounting (res : Response) (ps : List Piece)
    (tr : Option Headers) (hs : 200 ≤ res.status) :
    (write_final_response (β := Unit) unitEnc (Responder.mkNew ()) res
      = .ok (after_final res)) ∧
    ((write_chunks (β := Unit) unitEnc (after_final res) ps).2.state.bytes_written
      = total_len ps) ∧
    ((finish_body (β := Unit) unitEnc
        (write_chunks (β := Unit) unitEnc (after_final res) ps).2 tr).isOk = true
      ↔ (content_length res.headers = none
          ∨ content_length res.headers = some (total_len ps))) ∧
    (∀ a, content_length res.headers = some a → a ≠ total_len ps →
      (finish_body (β := Unit) unitEnc
          (write_chunks (β := Unit) unitEnc (after_final res) ps).2 tr
        = .error (.EyreReport (content_length_mismatch_msg a (total_len ps)))) ∧
      str_contains (content_length_mismatch_msg a (total_len ps)) (toString a) ∧
      str_contains (content_length_mismatch_msg a (total_len ps))
        (toString (total_len ps))) := by
  obtain ⟨hok, hbytes, hann⟩ :=
    write_chunks_unitEnc (β := Unit) ps (after_final res)
  have hbytes' : (write_chunks (β := Unit) unitEnc
      (after_final res) ps).2.state.bytes_written = total_len ps := by
    rw [hbytes]; simp [after_final]
  have hann' : (write_chunks (β := Unit) unitEnc
      (after_final res) ps).2.state.announced_content_length
      = content_length res.headers := by
    rw [hann]; simp [after_final]
  refine ⟨?_, hbytes', ?_, ?_⟩
  · have hi : is_informational res.status = false :=
      is_informational_false_of_ge _ hs
    simp [write_final_response, write_final_response_internal, hi, unitEnc,
      Responder.mkNew, after_final]
  · cases hL : content_length res.headers with
    | none =>
      rw [hL] at hann'
      simp [finish_body, hann', finish_body_tail_unitEnc_isOk]
    | some a =>
      rw [hL] at hann'
      by_cases hEq : total_len ps = a
      · subst hEq
        simp [finish_body, hann', hbytes', finish_body_tail_unitEnc_isOk]
      · have : (finish_body (β := Unit) unitEnc
            (write_chunks (β := Unit) unitEnc (after_final res) ps).2 tr)
            = .error (.EyreReport
                (content_length_mismatch_msg a (total_len ps))) := by
          simp [finish_body, hann', hbytes', hEq]
        rw [this]
        simp [Except.isOk, Except.toBool]
        omega
  · intro a hL hne
    rw [hL] at hann'
    refine ⟨?_, (content_length_mismatch_msg_contains _ _).1,
      (content_length_mismatch_msg_contains _ _).2⟩
    have hne' : total_len ps ≠ a := fun h => hne h.symm
    simp [finish_body, hann', hbytes', hne']

theorem C1_content_length_accounting_witness :
    ((finish_body (β := Unit) unitEnc
        (write_chunks (β := Unit) unitEnc
          (after_final ⟨200, 1, [("content-length", "3")]⟩)
          [⟨[1, 2, 3]⟩]).2 none).isOk = true
      ↔ (content_length [("content-length", "3")] = none
          ∨ content_length [("content-length", "3")]
              = some (total_len [⟨[1, 2, 3]⟩]))) ∧
    ((finish_body (β := Unit) unitEnc
        (write_chunks (β := Unit) unitEnc
          (after_final ⟨200, 1, [("content-length", "10")]⟩)
          [⟨[1, 2, 3, 4, 5]⟩]).2 none
      = .error (.EyreReport (content_length_mismatch_msg 10
          (total_len [⟨[1, 2, 3, 4, 5]⟩])))) ∧
      str_contains (content_length_mismatch_msg 10 (total_len [⟨[1, 2, 3, 4, 5]⟩]))
        (toString 10) ∧
      str_contains (content_length_mismatch_msg 10 (total_len [⟨[1, 2, 3, 4, 5]⟩]))
        (toString (total_len [⟨[1, 2, 3, 4, 5]⟩]))) :=
  ⟨(C1_content_length_accounting ⟨200, 1, [("content-length", "3")]⟩
      [⟨[1, 2, 3]⟩] none (by decide)).2.2.1,
   (C1_content_length_accounting ⟨200, 1, [("content-length", "10")]⟩
      [⟨[1, 2, 3, 4, 5]⟩] none (by decide)).2.2.2 10 (by decide) (by decide)⟩

theorem write_final_response_ok_shape {σ ε β : Type} (enc : Enc σ ε)
    (r : Responder σ ExpectResponseHeaders) (res : Response)
    (r1 : Responder σ ExpectResponseBody)
    (h : write_final_response (β := β) enc r res = .ok r1) :
    r1.calls = r.calls ++ [.response res] ∧
    r1.state = { announced_content_length := content_length res.headers,
                 bytes_written := 0 } := by
  unfold write_final_response write_final_response_internal at h
  by_cases hi : is_informational res.status = true
  · simp [hi] at h
  · simp [hi] at h
    cases he : enc.write_response r.encoder res with
    | error e => rw [he] at h; simp at h
    | ok s =>
      rw [he] at h
      simp at h
      subst h
      exact ⟨rfl, rfl⟩

theorem write_chunk_ok_shape {σ ε β : Type} (enc : Enc σ ε)
    (r r1 : Responder σ ExpectResponseBody) (p : Piece) (u : Unit)
    (h : write_chunk (β := β) enc r p = (.ok u, r1)) :
    r1.calls = r.calls ++ [.bodyChunk p] := by
  cases he : enc.write_body_chunk r.encoder p with
  | error e => simp [write_chunk, he] at h
  | ok s =>
    simp [write_chunk, he] at h
    rw [← h]

theorem finish_body_tail_calls {σ ε β : Type} (enc : Enc σ ε)
    (r : Responder σ ExpectResponseBody) (tr : Option Headers)
    (rd : Responder σ ResponseDone)
    (h : finish_body_tail (β := β) enc r tr = .ok rd) :
    rd.calls = r.calls ++ ([.bodyEnd] ++ trailer_calls tr) := by
  unfold finish_body_tail at h
  cases he : enc.write_body_end r.encoder with
  | error e => rw [he] at h; simp at h
  | ok s =>
    rw [he] at h
    cases tr with
    | none =>
      simp at h
      subst h
      simp [trailer_calls]
    | some t =>
      simp at h
      cases ht : enc.write_trailers s t with
      | error e => rw [ht] at h; simp at h
      | ok s2 =>
        rw [ht] at h
        simp at h
        subst h
        simp [trailer_calls]

theorem finish_body_calls {σ ε β : Type} (enc : Enc σ ε)
    (r : Responder σ ExpectResponseBody) (tr : Option Headers)
    (rd : Responder σ ResponseDone)
    (h : finish_body (β := β) enc r tr = .ok rd) :
    rd.calls = r.calls ++ ([.bodyEnd] ++ trailer_calls tr) := by
  unfold finish_body at h
  cases ha : r.state.announced_content_length with
  | none =>
    rw [ha] at h
    exact finish_body_tail_calls enc r tr rd h
  | some a =>
    rw [ha] at h
    by_cases hw : r.state.bytes_written = a
    · simp [hw] at h
      exact finish_body_tail_calls enc r tr rd h
    · simp [hw] at h

theorem body_loop_calls {σ ε β : Type} (enc : Enc σ ε) (ps : List Piece) :
    ∀ (r : Responder σ ExpectResponseBody) (tr : Option Headers)
      (rd : Responder σ ResponseDone),
    body_loop (β := β) enc r (ps.map Except.ok) tr = .ok rd →
    rd.calls = r.calls
      ++ (ps.map EncCall.bodyChunk ++ ([.bodyEnd] ++ trailer_calls tr)) := by
  induction ps with
  | nil =>
    intro r tr rd h
    simp [body_loop] at h
    simpa using finish_body_calls enc r tr rd h
  | cons p ps ih =>
    intro r tr rd h
    simp only [List.map_cons, body_loop] at h
    cases hc : write_chunk (β := β) enc r p with
    | mk fst snd =>
      rw [hc] at h
      cases fst with
      | error e => simp at h
      | ok u =>
        simp at h
        have hcalls := write_chunk_ok_shape enc r snd p u hc
        have := ih snd tr rd h
        rw [this, hcalls]
        simp

theorem body_loop_calls_mono {σ ε β : Type} (enc : Enc σ ε)
    (items : List (Except β Piece)) :
    ∀ (r : Responder σ ExpectResponseBody) (tr : Option Headers)
      (rd : Responder σ ResponseDone),
    body_loop (β := β) enc r items tr = .ok rd →
    ∃ l, rd.calls = r.calls ++ l := by
  induction items with
  | nil =>
    intro r tr rd h
    simp [body_loop] at h
    exact ⟨_, finish_body_calls enc r tr rd h⟩
  | cons item items ih =>
    intro r tr rd h
    cases item with
    | error e => simp [body_loop] at h
    | ok p =>
      simp only [body_loop] at h
      cases hc : write_chunk (β := β) enc r p with
      | mk fst snd =>
        rw [hc] at h
        cases fst with
        | error e => simp at h
        | ok u =>
          simp at h
          obtain ⟨l, hl⟩ := ih snd tr rd h
          have hcalls := write_chunk_ok_shape enc r snd p u hc
          exact ⟨[.bodyChunk p] ++ l, by rw [hl, hcalls]; simp⟩

/-- C5: encoder call order. For every successful run of
`write_final_response_with_body` over a body yielding chunks `ps` and then
done with `tr`, the encoder observes exactly: the final response headers,
then the body chunks in body order, then body-end, then the trailers iff
the body carried some — so no chunk precedes the final headers, body-end
follows all chunks, and trailers follow body-end. -/
theorem C5_encoder_call_order {σ ε β : Type} (enc : Enc σ ε)
    (r : Responder σ ExpectResponseHeaders) (res : Response) (ps : List Piece)
    (c : Option Nat) (tr : Option Headers) (rd : Responder σ ResponseDone)
    (h : write_final_response_with_body enc r res
          (⟨c, ps.map Except.ok, tr⟩ : BodySeq β) = .ok rd) :
    rd.calls = r.calls
      ++ ([.response (auto_content_length res c)]
          ++ (ps.map EncCall.bodyChunk ++ ([.bodyEnd] ++ trailer_calls tr))) := by
  unfold write_final_response_with_body at h
  cases hw : write_final_response (β := β) enc r (auto_content_length res c) with
  | error e => rw [hw] at h; simp at h
  | ok r1 =>
    rw [hw] at h
    simp at h
    have hs := write_final_response_ok_shape enc r (auto_content_length res c) r1 hw
    have hcalls := body_loop_calls enc ps r1 tr rd h
    rw [hcalls, hs.1]
    simp

theorem C5_encoder_call_order_witness :
    (write_final_response_with_body unitEnc (Responder.mkNew ()) ⟨200, 1, []⟩
        (⟨some 3, [Piece.mk [1, 2, 3]].map Except.ok, none⟩ : BodySeq Unit)
      = .ok { encoder := (),
              calls := [.response ⟨200, 1, [(contentLengthKey, "3")]⟩,
                        .bodyChunk ⟨[1, 2, 3]⟩, .bodyEnd],
              state := {} }) ∧
    Responder.calls
        (σ := Unit) (π := ResponseDone)
        { encoder := (),
          calls := [.response ⟨200, 1, [(contentLengthKey, "3")]⟩,
                    .bodyChunk ⟨[1, 2, 3]⟩, .bodyEnd],
          state := {} }
      = [] ++ ([.response (auto_content_length ⟨200, 1, []⟩ (some 3))]
          ++ ([Piece.mk [1, 2, 3]].map EncCall.bodyChunk
              ++ ([.bodyEnd] ++ trailer_calls none))) :=
  ⟨rfl,
   C5_encoder_call_order (β := Unit) unitEnc (Responder.mkNew ()) ⟨200, 1, []⟩
     [Piece.mk [1, 2, 3]] (some 3) none
     { encoder := (),
       calls := [.response ⟨200, 1, [(contentLengthKey, "3")]⟩,
                 .bodyChunk ⟨[1, 2, 3]⟩, .bodyEnd],
       state := {} } rfl⟩

/-- C4: automatic `Content-Length`. When the body reports a known length
and the headers lack `Content-Length`, the header fixup appends exactly
`Content-Length: <len>` in decimal ASCII; when the headers already carry
`Content-Length`, they are forwarded unchanged; and every successful
`write_final_response_with_body` forwards precisely the fixed-up response
to the encoder as its first call. -/
theorem C4_auto_content_length {σ ε β : Type} :
    (∀ (res : Response) (n : Nat),
      headers_contains res.headers contentLengthKey = false →
      (auto_content_length res (some n)).headers
        = res.headers ++ [(contentLengthKey, toString n)]) ∧
    (∀ (res : Response) (c : Option Nat),
      headers_contains res.headers contentLengthKey = true →
      (auto_content_length res c).headers = res.headers) ∧
    (∀ (enc : Enc σ ε) (r : Responder σ ExpectResponseHeaders) (res : Response)
        (body : BodySeq β) (rd : Responder σ ResponseDone),
      write_final_response_with_body enc r res body = .ok rd →
      ∃ l, rd.calls = r.calls
        ++ EncCall.response (auto_content_length res body.content_length) :: l) := by
  refine ⟨?_, ?_, ?_⟩
  · intro res n hmiss
    simp [auto_content_length, entry_or_insert, hmiss]
  · intro res c hhit
    cases c <;> simp [auto_content_length, entry_or_insert, hhit]
  · intro enc r res body rd h
    unfold write_final_response_with_body at h
    cases hw : write_final_response (β := β) enc r
        (auto_content_length res body.content_length) with
    | error e => rw [hw] at h; simp at h
    | ok r1 =>
      rw [hw] at h
      simp at h
      have hs := write_final_response_ok_shape enc r
        (auto_content_length res body.content_length) r1 hw
      obtain ⟨l, hl⟩ := body_loop_calls_mono enc body.items r1 body.trailers rd h
      refine ⟨l, ?_⟩
      rw [hl, hs.1]
      simp

theorem C4_auto_content_length_witness :
    ((auto_content_length ⟨200, 1, []⟩ (some 16)).headers
      = [] ++ [(contentLengthKey, toString 16)]) ∧
    ((auto_content_length ⟨200, 1, [("content-length", "10")]⟩ (some 16)).headers
      = [("content-length", "10")]) ∧
    (∃ l, Responder.calls
        (σ := Unit) (π := ResponseDone)
        { encoder := (),
          calls := [.response ⟨200, 1, [(contentLengthKey, "3")]⟩,
                    .bodyChunk ⟨[1, 2, 3]⟩, .bodyEnd],
          state := {} }
      = [] ++ EncCall.response
          (auto_content_length ⟨200, 1, []⟩
            (BodySeq.content_length
              (⟨some 3, [Except.ok (Piece.mk [1, 2, 3])], none⟩ : BodySeq Unit)))
          :: l) :=
  ⟨(C4_auto_content_length (σ := Unit) (ε := Unit) (β := Unit)).1 ⟨200, 1, []⟩ 16 rfl,
   (C4_auto_content_length (σ := Unit) (ε := Unit) (β := Unit)).2.1
     ⟨200, 1, [("content-length", "10")]⟩ (some 16) rfl,
   (C4_auto_content_length (σ := Unit) (ε := Unit) (β := Unit)).2.2 unitEnc
     (Responder.mkNew ()) ⟨200, 1, []⟩
     (⟨some 3, [Except.ok (Piece.mk [1, 2, 3])], none⟩ : BodySeq Unit)
     { encoder := (),
       calls := [.response ⟨200, 1, [(contentLengthKey, "3")]⟩,
                 .bodyChunk ⟨[1, 2, 3]⟩, .bodyEnd],
       state := {} } rfl⟩

theorem read_into_length_le (l : Nat) (buf : List Nat) (s : List (List Nat)) :
    (read_into l buf s).2.1.length ≤ buf.length + l := by
  cases s with
  | nil => simp [read_into]
  | cons c rest =>
    simp [read_into]

/-- C8: termination outcomes of `read_and_parse`. With the parser
incomplete and the buffer under the limit, a 0-byte read returns the clean
end-of-stream value when the buffer is empty and `ReadError(UnexpectedEof)`
when it is not; with the parser incomplete and the buffer at `max_len`,
the loop fails with `BufferLimitReachedWhileParsing{limit=max_len}`. -/
theorem C8_read_and_parse_termination {α : Type} (p : List Nat → ParseResult α)
    (max_len fuel : Nat) (buf : List Nat) (s : List (List Nat)) :
    (p buf = .incomplete → buf.length < max_len →
      (read_into (max_len - buf.length) buf s).1 = 0 →
      (read_into (max_len - buf.length) buf s).2.1.isEmpty = true →
      read_and_parse p max_len (fuel + 1) buf s = .eos) ∧
    (p buf = .incomplete → buf.length < max_len →
      (read_into (max_len - buf.length) buf s).1 = 0 →
      (read_into (max_len - buf.length) buf s).2.1.isEmpty = false →
      read_and_parse p max_len (fuel + 1) buf s
        = .err (.ReadError .unexpectedEof)) ∧
    (p buf = .incomplete → buf.length = max_len →
      read_and_parse p max_len (fuel + 1) buf s
        = .err (.BufferLimitReachedWhileParsing max_len)) := by
  refine ⟨?_, ?_, ?_⟩
  · intro hp hlt hn hempty
    have h1 : ¬ max_len < buf.length := by omega
    have h2 : ¬ max_len ≤ buf.length := by omega
    simp [read_and_parse, hp, h1, h2, hn, hempty]
  · intro hp hlt hn hempty
    have h1 : ¬ max_len < buf.length := by omega
    have h2 : ¬ max_len ≤ buf.length := by omega
    simp [read_and_parse, hp, h1, h2, hn, hempty]
  · intro hp heq
    have h1 : ¬ max_len < buf.length := by omega
    have h2 : max_len ≤ buf.length := by omega
    simp [read_and_parse, hp, h1, h2]

theorem C8_read_and_parse_termination_witness :
    (read_and_parse always_incomplete 4 1 [] [] = .eos) ∧
    (read_and_parse always_incomplete 4 1 [7] []
      = .err (.ReadError .unexpectedEof)) ∧
    (read_and_parse always_incomplete 1 1 [7] []
      = .err (.BufferLimitReachedWhileParsing 1)) :=
  ⟨(C8_read_and_parse_termination always_incomplete 4 0 [] []).1
      rfl (by decide) rfl rfl,
   (C8_read_and_parse_termination always_incomplete 4 0 [7] []).2.1
      rfl (by decide) rfl rfl,
   (C8_read_and_parse_termination always_incomplete 1 0 [7] []).2.2
      rfl rfl⟩

/-- C9: under the precondition that the buffer starts no longer than
`max_len`, the `usize` subtraction `max_len - buf.len()` evaluated on
every incomplete-parse iteration never underflows (reads are capped at
`max_len - buf.len()`, so `buf.len() ≤ max_len` is a loop invariant);
without the precondition, the very first iteration underflows. -/
theorem C9_no_underflow :
    (∀ (α : Type) (p : List Nat → ParseResult α) (max_len fuel : Nat)
        (buf : List Nat) (s : List (List Nat)), buf.length ≤ max_len →
      read_and_parse p max_len fuel buf s ≠ .panicked) ∧
    read_and_parse always_incomplete 0 1 [0] [] = .panicked := by
  constructor
  · intro α p max_len fuel
    induction fuel with
    | zero =>
      intro buf s hle
      simp [read_and_parse]
    | succ fuel ih =>
      intro buf s hle
      cases hp : p buf with
      | ok rest output => simp [read_and_parse, hp]
      | fail => simp [read_and_parse, hp]
      | incomplete =>
        have h1 : ¬ max_len < buf.length := by omega
        by_cases h2 : max_len ≤ buf.length
        · simp [read_and_parse, hp, h1, h2]
        · simp only [read_and_parse, hp, h1, if_false, h2, if_true]
          by_cases hn : (read_into (max_len - buf.length) buf s).1 = 0
          · cases hemp : (read_into (max_len - buf.length) buf s).2.1.isEmpty <;>
              simp [hn, hemp]
          · have hlen : (read_into (max_len - buf.length) buf s).2.1.length
                ≤ max_len := by
              have := read_into_length_le (max_len - buf.length) buf s
              omega
            simp [hn]
            exact ih _ _ hlen
  · rfl

theorem C9_no_underflow_witness :
    read_and_parse always_incomplete 5 3 [0, 1] [] ≠ .panicked :=
  C9_no_underflow.1 Unit always_incomplete 5 3 [0, 1] [] (by decide)
